import Mathlib

/-!
Verification of the linksaver ingestion-and-storage core.

Shallow embedding of:
- the SQLite-backed link store (`cmd/linksaver/db/db.go`): the `links` table,
  the `links_fts` FTS5 shadow table, the `links_ad` AFTER DELETE trigger, and
  the operations `AddLink`, `GetAllLinks`, `Search`, `GetLink`, `DeleteLink`,
  `UpdateLink`;
- the web handlers (`cmd/linksaver/web/handlers.go`): the SSRF guard
  `isPrivateOrLocalhost`, the `AddItem` URL/note branches, the HTML and
  browser extraction normalization (trim/truncation/body slicing), the
  screenshot filename scheme, and the `DeleteLink` handler.

Modelling conventions:
- Go strings/byte slices are modelled as Lean `String`/`List Char`, one `Char`
  per byte (the ASCII fragment, where Go's byte indexing and length coincide
  with character indexing and length). Byte-level Go operations
  (`strings.TrimSpace`, `strings.HasPrefix`, slicing, `bytes.Index`) are
  modelled char-wise on `String.data`.
- SQLite `CURRENT_TIMESTAMP` is modelled as a logical clock that strictly
  increases on every insert, so `ORDER BY added_at DESC` is a sort by the
  clock value, descending.
- SQLite rowid assignment without AUTOINCREMENT gives `max existing id + 1`,
  which is what `LastInsertId` returns; modelled as such.
- FTS5 `MATCH` is modelled for plain term queries: the query's tokens must all
  occur among the row's tokens (unicode61-style tokenization: maximal runs of
  alphanumeric characters, lowercased). Relevance ranking (`ORDER BY rank`) is
  not modelled; theorems below only use membership in search results.
- External collaborators (the DNS resolver, the DOM lookups of the HTML
  parser, the browser session, crypto/sha256) are parameters of the modelled
  functions.
-/

namespace LinkSaver

/-- Go `len` on a string (byte length; char length in the modelled fragment). -/
def goLen (s : String) : Nat := s.data.length

/-- Go slicing `s[:n]`. -/
def goTake (s : String) (n : Nat) : String := String.mk (s.data.take n)

/-- Character-list test: does `s` begin with `p`? -/
def strStartsWith : List Char → List Char → Bool
  | _, [] => true
  | [], _ :: _ => false
  | c :: s, d :: p => c = d && strStartsWith s p

/-- Go `strings.HasPrefix`. -/
def goStartsWith (s p : String) : Bool := strStartsWith s.data p.data

/-- Go `strings.HasSuffix`. -/
def goEndsWith (s p : String) : Bool := strStartsWith s.data.reverse p.data.reverse

/-- Go `strings.ToLower` (char-wise). -/
def goToLower (s : String) : String := String.mk (s.data.map Char.toLower)

/-- Go `strings.TrimSpace` (drop whitespace from both ends). -/
def goTrimSpace (s : String) : String :=
  String.mk (((s.data.dropWhile Char.isWhitespace).reverse.dropWhile Char.isWhitespace).reverse)

/-- Go `bytes.Index`: index of the first occurrence of `needle` in `hay`,
`none` for Go's `-1`. -/
def indexOfSub : List Char → List Char → Option Nat
  | [], needle => if needle = [] then some 0 else none
  | c :: rest, needle =>
    if strStartsWith (c :: rest) needle then some 0
    else (indexOfSub rest needle).map (fun i => i + 1)

/-- FTS5 unicode61-style tokenizer, accumulator-based: maximal runs of
alphanumeric characters, lowercased. -/
def tokenizeAux : List Char → List Char → List (List Char)
  | [], cur => if cur = [] then [] else [cur.reverse]
  | c :: rest, cur =>
    if c.isAlphanum then tokenizeAux rest (c.toLower :: cur)
    else if cur = [] then tokenizeAux rest [] else cur.reverse :: tokenizeAux rest []

/-- Tokens of a string. -/
def tokenize (s : String) : List (List Char) := tokenizeAux s.data []

/-! ## The link store (`cmd/linksaver/db/db.go`) -/

/-- A row of the `links` table (`id` INTEGER PRIMARY KEY, `url` UNIQUE NOT
NULL, `title`, `description` NOT NULL, `added_at` default current time). -/
structure Row where
  id : Nat
  url : String
  title : String
  description : String
  addedAt : Nat
deriving DecidableEq

/-- A row of the `links_fts` FTS5 shadow table (rowid, title, description,
body; contentless). -/
structure FtsRow where
  rowid : Nat
  title : String
  description : String
  body : String
deriving DecidableEq

/-- Database state: the two tables plus the logical insertion clock modelling
`CURRENT_TIMESTAMP`. Both lists are kept in physical (insertion) order. -/
structure DBState where
  links : List Row
  linksFts : List FtsRow
  clock : Nat
deriving DecidableEq

/-- The freshly initialized database (schema created, both tables empty). -/
def emptyDB : DBState := ⟨[], [], 0⟩

/-- The two sentinel storage errors of the db package: `ErrDuplicate` and
`ErrNotFound`. -/
inductive DBError
  | duplicate
  | notFound
deriving DecidableEq

/-- SQLite rowid assignment for `INSERT INTO links`: largest existing id
plus one (this is what `LastInsertId` reports). -/
def nextRowId (rs : List Row) : Nat := rs.foldr (fun r m => max r.id m) 0 + 1

/-- `AddLink` (db.go 129-164): one transaction inserting the primary row and
the FTS entry; a UNIQUE violation on `url` yields `ErrDuplicate` and the
transaction is rolled back, so the state is returned unchanged. -/
def AddLink (st : DBState) (url title description body : String) :
    Except DBError Nat × DBState :=
  if st.links.any (fun r => r.url == url) then (Except.error DBError.duplicate, st)
  else
    let id := nextRowId st.links
    (Except.ok id,
     { links := st.links ++ [{ id := id, url := url, title := title,
                               description := description, addedAt := st.clock }],
       linksFts := st.linksFts ++ [{ rowid := id, title := title,
                                     description := description, body := body }],
       clock := st.clock + 1 })

/-- Insert a row into a list sorted by `addedAt` descending. -/
def insertByAddedAtDesc (r : Row) : List Row → List Row
  | [] => [r]
  | x :: xs => if x.addedAt ≤ r.addedAt then r :: x :: xs else x :: insertByAddedAtDesc r xs

/-- Sort rows by `addedAt` descending (insertion sort). -/
def sortByAddedAtDesc : List Row → List Row
  | [] => []
  | r :: rs => insertByAddedAtDesc r (sortByAddedAtDesc rs)

/-- `GetAllLinks` (db.go 80-100): `SELECT ... FROM links ORDER BY added_at
DESC`. -/
def GetAllLinks (st : DBState) : List Row := sortByAddedAtDesc st.links

/-- The tokens of an FTS row, over all three indexed columns. -/
def rowTokens (f : FtsRow) : List (List Char) :=
  tokenize f.title ++ tokenize f.description ++ tokenize f.body

/-- FTS5 `MATCH` for a plain term query: every token of the query occurs among
the row's tokens. -/
def ftsMatch (q : String) (f : FtsRow) : Bool :=
  (tokenize q).all (fun t => (rowTokens f).contains t)

/-- `Search` (db.go 103-127): `links_fts MATCH ?` joined with `links` on
`l.id = f.rowid`; returns the primary-row fields of the matching records
(relevance order not modelled). -/
def Search (st : DBState) (q : String) : List Row :=
  st.links.filter (fun l => st.linksFts.any (fun f => f.rowid == l.id && ftsMatch q f))

/-- `GetLink` (db.go 168-180). -/
def GetLink (st : DBState) (id : Nat) : Except DBError Row :=
  match st.links.find? (fun r => r.id == id) with
  | some r => Except.ok r
  | none => Except.error DBError.notFound

/-- The raw table-level statement `DELETE FROM links WHERE id = ?` together
with the schema's `links_ad` AFTER DELETE trigger (db.go 63-65), which runs
`DELETE FROM links_fts WHERE ROWID = old.id` for every deleted row; returns
the new state and the number of affected `links` rows. The trigger is part of
the schema, so it fires however the deletion is issued. -/
def sqlDeleteFromLinks (st : DBState) (id : Nat) : DBState × Nat :=
  let deleted := st.links.filter (fun r => r.id == id)
  ({ st with
      links := st.links.filter (fun r => !(r.id == id)),
      linksFts := st.linksFts.filter (fun f => deleted.all (fun r => !(f.rowid == r.id))) },
   deleted.length)

/-- `DeleteLink` (db.go 183-196): issue the table-level delete; zero affected
rows yields `ErrNotFound`. -/
def DeleteLink (st : DBState) (id : Nat) : Except DBError DBState :=
  let res := sqlDeleteFromLinks st id
  if res.2 = 0 then Except.error DBError.notFound else Except.ok res.1

/-- `UpdateLink` (db.go 199-212): `UPDATE links SET title = ? WHERE id = ?`;
zero affected rows yields `ErrNotFound`. Only the primary row's title is
touched: no description column and no `links_fts` statement appear in this
function. -/
def UpdateLink (st : DBState) (id : Nat) (title : String) : Except DBError DBState :=
  let affected := (st.links.filter (fun r => r.id == id)).length
  let updated : DBState :=
    { st with links := st.links.map (fun r => if r.id == id then { r with title := title } else r) }
  if affected = 0 then Except.error DBError.notFound else Except.ok updated

/-- The two-table consistency invariant of the spec: an FTS entry exists for
an id iff a `links` row with that id exists (stated as a decidable
double inclusion on the id sets). -/
def ftsConsistent (st : DBState) : Bool :=
  st.linksFts.all (fun f => st.links.any (fun r => r.id == f.rowid)) &&
  st.links.all (fun r => st.linksFts.any (fun f => f.rowid == r.id))

/-! ## The web handlers (`cmd/linksaver/web/handlers.go`) -/

/-- An IP address as the `net` package classifies it: an IPv4 address (four
octets) or an IPv6 address (sixteen bytes). -/
inductive IP
  | v4 (a b c d : Nat)
  | v6 (bytes : List Nat)
deriving DecidableEq

/-- The sixteen bytes of `::1`. -/
def v6Loopback : List Nat := [0, 0, 0, 0, 0, 0, 0, 0, 0, 0, 0, 0, 0, 0, 0, 1]

/-- `net.IP.IsLoopback`: 127.0.0.0/8 or `::1`. -/
def goIsLoopback : IP → Bool
  | IP.v4 a _ _ _ => a == 127
  | IP.v6 bs => bs == v6Loopback

/-- `net.IP.IsPrivate`: 10.0.0.0/8, 172.16.0.0/12, 192.168.0.0/16, or
fc00::/7. -/
def goIsPrivate : IP → Bool
  | IP.v4 a b _ _ =>
    a == 10 || (a == 172 && decide (16 ≤ b) && decide (b ≤ 31)) || (a == 192 && b == 168)
  | IP.v6 bs =>
    match bs with
    | b0 :: _ => b0 &&& 0xfe == 0xfc
    | [] => false

/-- `net.IP.IsUnspecified`: 0.0.0.0 or `::`. -/
def goIsUnspecified : IP → Bool
  | IP.v4 a b c d => a == 0 && b == 0 && c == 0 && d == 0
  | IP.v6 bs => bs == List.replicate 16 0

/-- `net.IP.IsLinkLocalUnicast`: 169.254.0.0/16 or fe80::/10. This predicate
is NOT among the checks `isPrivateOrLocalhost` performs. -/
def goIsLinkLocalUnicast : IP → Bool
  | IP.v4 a b _ _ => a == 169 && b == 254
  | IP.v6 bs =>
    match bs with
    | b0 :: b1 :: _ => b0 == 0xfe && b1 &&& 0xc0 == 0x80
    | _ => false

/-- Decimal digit value of a character. -/
def digitVal (c : Char) : Nat := c.toNat - 48

/-- Split a character list on a separator character (like `strings.Split`). -/
def splitOnChar (sep : Char) : List Char → List (List Char)
  | [] => [[]]
  | c :: rest =>
    if c = sep then [] :: splitOnChar sep rest
    else
      match splitOnChar sep rest with
      | g :: gs => (c :: g) :: gs
      | [] => [[c]]

/-- One dotted-decimal IPv4 field as Go parses it: nonempty, all digits, no
leading zero, value at most 255. -/
def parseV4Field : List Char → Option Nat
  | [] => none
  | c0 :: rest =>
    if (c0 :: rest).all Char.isDigit then
      if c0 = '0' ∧ rest ≠ [] then none
      else
        let n := (c0 :: rest).foldl (fun acc c => acc * 10 + digitVal c) 0
        if n ≤ 255 then some n else none
    else none

/-- Go's IPv4 textual form: exactly four dotted-decimal fields. -/
def parseIPv4 (s : List Char) : Option IP :=
  match (splitOnChar '.' s).map parseV4Field with
  | [some a, some b, some c, some d] => some (IP.v4 a b c d)
  | _ => none

/-- The first `.` or `:` in a string, which decides whether Go's `ParseIP`
attempts the IPv4 or the IPv6 grammar. -/
def firstSep : List Char → Option Char
  | [] => none
  | c :: rest => if c = '.' ∨ c = ':' then some c else firstSep rest

/-- Model of `net.ParseIP` (a standard-library collaborator): full
dotted-decimal IPv4, plus the IPv6 literals `::1` and `::`; other IPv6
textual forms are outside the modelled fragment and yield `none`. -/
def goParseIP (s : String) : Option IP :=
  match firstSep s.data with
  | some '.' => parseIPv4 s.data
  | some ':' =>
    if s = "::1" then some (IP.v6 v6Loopback)
    else if s = "::" then some (IP.v6 (List.replicate 16 0))
    else none
  | _ => none

/-- The address predicate `isPrivateOrLocalhost` applies, both to a parsed
literal and to each resolved address: loopback, private, or unspecified
(handlers.go lines 279 and 299). -/
def blockedIP (ip : IP) : Bool := goIsLoopback ip || goIsPrivate ip || goIsUnspecified ip

/-- The hostname condition of `isPrivateOrLocalhost` (handlers.go 282-283):
empty host, or a lowercased host that begins with "localhost" or ends with
".localhost". -/
def isLocalHostname (host : String) : Bool :=
  host == "" || goStartsWith (goToLower host) "localhost" ||
    goEndsWith (goToLower host) ".localhost"

/-- `isPrivateOrLocalhost` (handlers.go 272-305). The DNS resolver
(`net.DefaultResolver.LookupIPAddr` under a 5-second timeout) is a
collaborator, modelled as a function returning `none` on resolution failure
(including timeout). -/
def isPrivateOrLocalhost (forTesting : Bool) (resolver : String → Option (List IP))
    (host : String) : Bool :=
  if forTesting then false
  else
    match goParseIP host with
    | some ip => blockedIP ip
    | none =>
      if isLocalHostname host then true
      else
        match resolver host with
        | none => true
        | some ips => ips.any blockedIP

/-- Outcome of the URL branch of `AddItem`: either the submission is rejected
as a validation error (no fetch is attempted), or control reaches `addLink`,
whose first action is the network fetch (plain client or browser). -/
inductive SubmitOutcome
  | validationError
  | fetchAttempt (scheme host : String)
deriving DecidableEq

/-- The URL branch of `AddItem` (handlers.go 177-185), after `url.Parse`
succeeded with the given scheme and hostname: reject unless the scheme is
http or https and the host clears `isPrivateOrLocalhost`; only then is
`addLink` (and with it any fetch) reached. -/
def addItemURL (forTesting : Bool) (resolver : String → Option (List IP))
    (scheme host : String) : SubmitOutcome :=
  if (scheme != "http" && scheme != "https") || isPrivateOrLocalhost forTesting resolver host then
    SubmitOutcome.validationError
  else SubmitOutcome.fetchAttempt scheme host

/-- The fields of `Handlers` the claims are about. -/
structure Handlers where
  screenshotsDir : String
  forTesting : Bool
deriving DecidableEq

/-- The unexported constructor `newHandlers` (handlers.go 55-117), restricted
to the modelled fields: it stores the `forTesting` flag it is given. -/
def newHandlers (screenshotsDir : String) (forTesting : Bool) : Handlers :=
  { screenshotsDir := screenshotsDir, forTesting := forTesting }

/-- The exported constructor `NewHandlers` (handlers.go 51-53): it always
calls `newHandlers` with `forTesting` set to `false`. -/
def NewHandlers (screenshotsDir : String) : Handlers := newHandlers screenshotsDir false

/-! ### Extraction normalization -/

def maxTitleLength : Nat := 250
def maxDescriptionLength : Nat := 1020
def maxBodyLength : Nat := 1000000

/-- `extractTitleAndDescriptionAndBodyFromHtml` (handlers.go 345-372), the
plain-fetch hypertext path. The DOM lookups `extractTitleFromHtml` and
`extractDescriptionFromHtml` are collaborator calls on the parsed document,
modelled as the inputs `parsedTitle` and `parsedDescription`; `responseBody`
is the raw fetched document (already capped at `maxBodyLength` bytes by the
limited reader in `extractTitleAndDescriptionAndBodyFromURL`). Returns
`none` exactly when the trimmed title is empty (the "no title found" error);
otherwise the normalized (title, description, body) triple, where the body
is `responseBody[bodyIndex:]` if `bytes.Index(responseBody, "<body>")` is
positive and the whole `responseBody` otherwise. -/
def extractFromHtml (parsedTitle parsedDescription : String) (responseBody : List Char) :
    Option (String × String × List Char) :=
  let title := goTrimSpace parsedTitle
  if title = "" then none
  else
    let description := goTrimSpace parsedDescription
    let title2 := if goLen title > maxTitleLength then goTake title maxTitleLength ++ "..." else title
    let description2 :=
      if goLen description > maxDescriptionLength then
        goTake description maxDescriptionLength ++ "..."
      else description
    let body :=
      match indexOfSub responseBody ("<body>".data) with
      | some i => if i > 0 then responseBody.drop i else responseBody
      | none => responseBody
    some (title2, description2, body)

/-- The normalization tail of `extractTitleAndDescriptionAndBodyAndScreenshotFromURL`
(handlers.go 503-565), the browser path: `rawTitle`, `rawDescription` and
`body` are what the browser collaborator returned (already trimmed where the
source trims them); returns `none` exactly when the trimmed title is empty.
Note the title truncation appends the ellipsis marker twice, as written in
the source (line 554). -/
def normalizeBrowserExtraction (rawTitle rawDescription : String) (body : List Char) :
    Option (String × String × List Char) :=
  let title := goTrimSpace rawTitle
  let description := goTrimSpace rawDescription
  if title = "" then none
  else
    let title2 :=
      if goLen title > maxTitleLength then goTake title maxTitleLength ++ "..." ++ "..." else title
    let description2 :=
      if goLen description > maxDescriptionLength then
        goTake description maxDescriptionLength ++ "..."
      else description
    let body2 := if body.length > maxBodyLength then body.take maxBodyLength else body
    some (title2, description2, body2)

/-! ### Screenshot artifacts and the delete handler -/

/-- `screenshotFilename` (handlers.go 766-769): the hex encoding of the
sha256 digest of the URL string, plus ".png". The digest-and-hex-encode
composition (`crypto/sha256` plus `encoding/hex`, 32 digest bytes becoming
64 hex characters) is a collaborator, passed as the parameter `sha256hex`. -/
def screenshotFilename (sha256hex : String → String) (urlString : String) : String :=
  sha256hex urlString ++ ".png"

/-- `saveScreenshot` (handlers.go 568-577): write the image under
`screenshotFilename urlString` in the screenshots directory; the directory's
contents are modelled as the list of existing filenames. -/
def saveScreenshot (sha256hex : String → String) (fs : List String) (urlString : String) :
    List String :=
  screenshotFilename sha256hex urlString :: fs

/-- HTTP status codes used by the handlers. -/
def statusOK : Nat := 200
def statusCreated : Nat := 201
def statusBadRequest : Nat := 400
def statusNotFound : Nat := 404
def statusConflict : Nat := 409
def statusInternalServerError : Nat := 500

/-- The `DeleteLink` handler (handlers.go 657-679): delete the row by id,
then best-effort remove `screenshots/<id>.png` — the filename is built from
the numeric id with `fmt.Sprintf`, not from `screenshotFilename`. Returns
the new database state, the screenshots directory contents, and the HTTP
status. -/
def deleteLinkHandler (st : DBState) (fs : List String) (id : Nat) :
    DBState × List String × Nat :=
  match DeleteLink st id with
  | Except.error _ => (st, fs, statusNotFound)
  | Except.ok st2 => (st2, fs.filter (fun f => f != toString id ++ ".png"), statusOK)

/-! ### Notes -/

/-- The pseudo-URL of a note (handlers.go 260): the literal prefix "note:"
followed by the decimal Unix-millisecond timestamp. -/
def pseudoURL (nowMillis : Nat) : String := "note:" ++ toString nowMillis

/-- `addNote` (handlers.go 256-270): store the note with the pseudo-URL, the
note text as both description and body; ANY storage error — `ErrDuplicate`
included — takes the generic 500 branch (there is no `errors.Is(err,
db.ErrDuplicate)` check here, unlike `addLink`). -/
def addNote (st : DBState) (nowMillis : Nat) (title note : String) : DBState × Nat :=
  match AddLink st (pseudoURL nowMillis) title note note with
  | (Except.ok _, st2) => (st2, statusCreated)
  | (Except.error _, _) => (st, statusInternalServerError)

/-- The note branch of `AddItem` (handlers.go 186-212): trim and validate the
title and the note text, then call `addNote`. -/
def addItemNote (st : DBState) (nowMillis : Nat) (rawTitle rawNote : String) : DBState × Nat :=
  let title := goTrimSpace rawTitle
  if title == "" then (st, statusBadRequest)
  else if goLen title > maxTitleLength then (st, statusBadRequest)
  else
    let note := goTrimSpace rawNote
    if note == "" then (st, statusBadRequest)
    else if goLen note > maxDescriptionLength then (st, statusBadRequest)
    else addNote st nowMillis title note

/-- The status mapping of `addLink`'s store step (handlers.go 235-243), for
contrast with `addNote`: a duplicate URL is reported as 409 Conflict there. -/
def addLinkStoreStatus : Except DBError Nat → Nat
  | Except.ok _ => statusCreated
  | Except.error DBError.duplicate => statusConflict
  | Except.error _ => statusInternalServerError

/-! ## Helper lemmas -/

/-- Membership in the sorted insertion. -/
theorem mem_insertByAddedAtDesc (r a : Row) (xs : List Row) :
    a ∈ insertByAddedAtDesc r xs ↔ a = r ∨ a ∈ xs := by
  induction xs with
  | nil => simp [insertByAddedAtDesc]
  | cons x xs ih =>
    by_cases h : x.addedAt ≤ r.addedAt
    · simp [insertByAddedAtDesc, h]
    · simp [insertByAddedAtDesc, h, ih]
      tauto

/-- Sorting by `added_at` does not change membership. -/
theorem mem_sortByAddedAtDesc (a : Row) (xs : List Row) :
    a ∈ sortByAddedAtDesc xs ↔ a ∈ xs := by
  induction xs with
  | nil => simp [sortByAddedAtDesc]
  | cons x xs ih => simp [sortByAddedAtDesc, mem_insertByAddedAtDesc, ih]

/-- Correctness of the substring search: at the reported index the needle
indeed begins. -/
theorem strStartsWith_of_indexOfSub (hay needle : List Char) :
    ∀ i, indexOfSub hay needle = some i → strStartsWith (hay.drop i) needle = true := by
  induction hay with
  | nil =>
    intro i h
    simp only [indexOfSub] at h
    split at h
    · rename_i hn
      cases h
      subst hn
      rfl
    · cases h
  | cons c rest ih =>
    intro i h
    simp only [indexOfSub] at h
    split at h
    · rename_i hsw
      cases h
      simpa using hsw
    · obtain ⟨j, hj, rfl⟩ := Option.map_eq_some'.mp h
      simpa using ih j hj

/-- Go string append concatenates the underlying characters. -/
theorem goLen_append (a b : String) : goLen (a ++ b) = goLen a + goLen b := by
  cases a with
  | mk da =>
    cases b with
    | mk db =>
      show (da ++ db).length = da.length + db.length
      exact List.length_append da db

/-! ## The claims -/

/-- C1: the spec says `update(id, title, description)` updates both the
primary row (title and description) and the shadow FTS entry atomically, so
that a term occurring only in the old title no longer matches and a term in
the new title does. The source `UpdateLink` (db.go 199-212) takes no
description and issues no `links_fts` statement, contradicting its own test
(db_test.go line 155 calls it with three arguments) and its caller
(handlers.go line 621). Concretely: after adding a link titled "peculiar
title" and updating its title to "new name", a search for "peculiar" still
returns the record, a search for "name" returns nothing, and the description
is untouched. -/
theorem c1_update_leaves_fts_stale :
    (UpdateLink (AddLink emptyDB "https://example.com" "peculiar title" "old desc"
        "body stuff").2 1 "new name").toOption.map
      (fun st2 =>
        ((Search st2 "peculiar").map Row.id, (Search st2 "name").map Row.id,
         (GetLink st2 1).toOption.map (fun r => (r.title, r.description)))) =
    some ([1], [], some ("new name", "old desc")) := by decide

/-- C2: after one successful `add` of a URL, a second `add` of the same URL
returns `ErrDuplicate` (a sentinel distinct from the other storage error)
and writes nothing: the state after the failed second add is exactly the
state after the first. -/
theorem c2_duplicate_add_rejected :
    ∀ (st st2 : DBState) (u t d b t2 d2 b2 : String) (id : Nat),
      AddLink st u t d b = (Except.ok id, st2) →
      AddLink st2 u t2 d2 b2 = (Except.error DBError.duplicate, st2) ∧
      DBError.duplicate ≠ DBError.notFound := by
  intro st st2 u t d b t2 d2 b2 id h
  refine ⟨?_, by simp⟩
  unfold AddLink at h
  split at h
  · exact absurd (congrArg Prod.fst h) (by simp)
  · injection h with h1 h2
    subst h2
    simp [AddLink, List.any_append]

/-- Witness for C2 at a concrete state. -/
theorem c2_witness :
    AddLink (AddLink emptyDB "https://e.com" "t" "d" "b").2 "https://e.com" "x" "y" "z" =
      (Except.error DBError.duplicate, (AddLink emptyDB "https://e.com" "t" "d" "b").2) ∧
    DBError.duplicate ≠ DBError.notFound :=
  c2_duplicate_add_rejected emptyDB _ "https://e.com" "t" "d" "b" "x" "y" "z" 1 rfl

/-- C4 counterexample: the claim includes link-local literal addresses among
the hosts rejected before any fetch, but `isPrivateOrLocalhost` only checks
`IsLoopback`, `IsPrivate` and `IsUnspecified`; the link-local literal
169.254.169.254 is parsed as an IP literal, none of the three checks fires,
and the submission proceeds to the fetch. -/
theorem c4_linklocal_not_rejected :
    addItemURL false (fun _ => some []) "http" "169.254.169.254" =
      SubmitOutcome.fetchAttempt "http" "169.254.169.254" ∧
    goParseIP "169.254.169.254" = some (IP.v4 169 254 169 254) ∧
    goIsLinkLocalUnicast (IP.v4 169 254 169 254) = true ∧
    blockedIP (IP.v4 169 254 169 254) = false := by decide

/-- C4 (amended): for every URL submission whose host parses as an IP
literal that is loopback, private-range, or unspecified (0.0.0.0), or whose
host is a localhost name (case-insensitive "localhost" prefix or
".localhost" suffix), the submission is rejected as a validation error and
the fetch stage is never reached; link-local literals are not covered. -/
theorem c4_guard_rejection :
    ∀ (resolver : String → Option (List IP)) (scheme host : String),
      ((∃ ip, goParseIP host = some ip ∧ blockedIP ip = true) ∨
       (goParseIP host = none ∧ isLocalHostname host = true)) →
      addItemURL false resolver scheme host = SubmitOutcome.validationError := by
  intro resolver scheme host h
  have hp : isPrivateOrLocalhost false resolver host = true := by
    unfold isPrivateOrLocalhost
    rcases h with ⟨ip, hip, hbad⟩ | ⟨hnone, hlocal⟩
    · simp [hip, hbad]
    · simp [hnone, hlocal]
  simp [addItemURL, hp]

/-- Witness for C4 at the loopback literal 127.0.0.1. -/
theorem c4_witness :
    addItemURL false (fun _ => some []) "http" "127.0.0.1" = SubmitOutcome.validationError :=
  c4_guard_rejection (fun _ => some []) "http" "127.0.0.1"
    (Or.inl ⟨IP.v4 127 0 0 1, by decide, by decide⟩)

/-- C5: under strict enforcement (`forTesting = false`), when the host is
neither an IP literal nor a localhost name, the guard consults the resolver
and fails closed: a resolution failure rejects the URL, and a successful
resolution accepts it exactly when no resolved address is loopback, private,
or unspecified. -/
theorem c5_dns_fail_closed :
    ∀ (resolver : String → Option (List IP)) (host : String),
      goParseIP host = none →
      isLocalHostname host = false →
      (resolver host = none → isPrivateOrLocalhost false resolver host = true) ∧
      (∀ ips, resolver host = some ips →
        (isPrivateOrLocalhost false resolver host = false ↔
          ∀ ip ∈ ips, blockedIP ip = false)) := by
  intro resolver host hparse hlocal
  constructor
  · intro hres
    simp [isPrivateOrLocalhost, hparse, hlocal, hres]
  · intro ips hres
    simp only [isPrivateOrLocalhost, hparse, hlocal, hres, if_neg, Bool.false_eq_true,
      if_false]
    rw [show (List.any ips blockedIP = false) ↔ ¬ (List.any ips blockedIP = true) by simp]
    simp [List.any_eq_true]

/-- Witness for C5 at host "example.com" with a resolver returning one
public address. -/
theorem c5_witness :
    isPrivateOrLocalhost false (fun _ => some [IP.v4 93 184 216 34]) "example.com" = false :=
  ((c5_dns_fail_closed (fun _ => some [IP.v4 93 184 216 34]) "example.com" rfl rfl).2
    [IP.v4 93 184 216 34] rfl).mpr (by decide)

/-- C6 counterexample: the claim says the `forTesting` flag disables only
the DNS-resolution step, all other validation steps still running. With the
flag set, `isPrivateOrLocalhost` returns `false` immediately, so even the
loopback-literal check (which involves no DNS) does not run: 127.0.0.1 is
accepted with the flag set and rejected without it — and no resolver call
can be involved, since the host is an IP literal. -/
theorem c6_flag_disables_ip_literal_check :
    isPrivateOrLocalhost true (fun _ => some []) "127.0.0.1" = false ∧
    isPrivateOrLocalhost false (fun _ => some []) "127.0.0.1" = true := by decide

/-- C6 (amended): the `forTesting` flag disables the entire
private/localhost host check — with the flag set `isPrivateOrLocalhost`
returns `false` for every host — while the scheme check of `AddItem` still
runs; and the exported constructor `NewHandlers` always creates `Handlers`
with the flag disabled. -/
theorem c6_flag_scope_and_production_default :
    (∀ (resolver : String → Option (List IP)) (host : String),
      isPrivateOrLocalhost true resolver host = false) ∧
    (∀ (resolver : String → Option (List IP)) (scheme host : String),
      scheme ≠ "http" → scheme ≠ "https" →
      addItemURL true resolver scheme host = SubmitOutcome.validationError) ∧
    (∀ dir, (NewHandlers dir).forTesting = false) := by
  refine ⟨fun resolver host => rfl, ?_, fun dir => rfl⟩
  intro resolver scheme host h1 h2
  have b1 : (scheme == "http") = false := beq_eq_false_iff_ne.mpr h1
  have b2 : (scheme == "https") = false := beq_eq_false_iff_ne.mpr h2
  simp [addItemURL, isPrivateOrLocalhost, bne, b1, b2]

/-- Witness for C6 at scheme "ftp". -/
theorem c6_witness :
    addItemURL true (fun _ => some []) "ftp" "example.com" = SubmitOutcome.validationError :=
  c6_flag_scope_and_production_default.2.1 (fun _ => some []) "ftp" "example.com"
    (by decide) (by decide)

/-- The `links` component of the raw delete. -/
theorem sqlDelete_links (st : DBState) (id : Nat) :
    (sqlDeleteFromLinks st id).1.links = st.links.filter (fun r => !(r.id == id)) := rfl

/-- The `links_fts` component of the raw delete (trigger effect). -/
theorem sqlDelete_fts (st : DBState) (id : Nat) :
    (sqlDeleteFromLinks st id).1.linksFts =
      st.linksFts.filter (fun f =>
        (st.links.filter (fun r => r.id == id)).all (fun r => !(f.rowid == r.id))) := rfl

/-- The affected-row count of the raw delete. -/
theorem sqlDelete_count (st : DBState) (id : Nat) :
    (sqlDeleteFromLinks st id).2 = (st.links.filter (fun r => r.id == id)).length := rfl

/-- C3: the shadow FTS entry exists iff the corresponding `links` row exists.
`DeleteLink` issues only the table-level delete, and the table-level delete
itself (with the schema's `links_ad` trigger) removes the shadow entry, so
the rule holds however the deletion is issued; after a successful delete the
id appears in no FTS entry, in no `GetAllLinks` result and in no `Search`
result; the consistency invariant holds of the fresh database, is preserved
by `AddLink`, and is preserved by the delete. -/
theorem c3_shadow_index_consistency :
    ∀ (st st2 : DBState) (id : Nat),
      ftsConsistent st = true →
      DeleteLink st id = Except.ok st2 →
      st2 = (sqlDeleteFromLinks st id).1 ∧
      ftsConsistent st2 = true ∧
      (∀ f ∈ st2.linksFts, f.rowid ≠ id) ∧
      (∀ l ∈ GetAllLinks st2, l.id ≠ id) ∧
      (∀ q l, l ∈ Search st2 q → l.id ≠ id) ∧
      (∀ u t d b, ftsConsistent (AddLink st u t d b).2 = true) ∧
      ftsConsistent emptyDB = true := by
  intro st st2 id hcons hdel
  have hcons2 := hcons
  simp only [ftsConsistent, Bool.and_eq_true, List.all_eq_true, List.any_eq_true,
    beq_iff_eq] at hcons
  obtain ⟨hc1, hc2⟩ := hcons
  have factAdd : ∀ u t d b, ftsConsistent (AddLink st u t d b).2 = true := by
    intro u t d b
    cases hdup : st.links.any (fun r => r.url == u) with
    | true =>
      simp only [AddLink, hdup, if_true]
      exact hcons2
    | false =>
      simp only [AddLink, hdup, Bool.false_eq_true, if_false]
      simp only [ftsConsistent, Bool.and_eq_true, List.all_eq_true, List.any_eq_true,
        beq_iff_eq, List.mem_append, List.mem_singleton]
      constructor
      · intro f hf
        rcases hf with hf | hf
        · obtain ⟨r, hrmem, hrid⟩ := hc1 f hf
          exact ⟨r, Or.inl hrmem, hrid⟩
        · subst hf
          exact ⟨_, Or.inr rfl, rfl⟩
      · intro r hr
        rcases hr with hr | hr
        · obtain ⟨f, hfmem, hfid⟩ := hc2 r hr
          exact ⟨f, Or.inl hfmem, hfid⟩
        · subst hr
          exact ⟨_, Or.inr rfl, rfl⟩
  simp only [DeleteLink] at hdel
  split at hdel
  · exact absurd hdel (by simp)
  · rename_i hne
    injection hdel with hdel
    subst hdel
    have hDne : st.links.filter (fun r => r.id == id) ≠ [] := by
      intro h0
      exact hne (by rw [sqlDelete_count, h0]; rfl)
    obtain ⟨r0, hr0⟩ := List.exists_mem_of_ne_nil _ hDne
    have hr0mem : r0 ∈ st.links := (List.mem_filter.mp hr0).1
    have hr0id : r0.id = id := by
      have h2 := (List.mem_filter.mp hr0).2
      simpa [beq_iff_eq] using h2
    have factA : ∀ f ∈ (sqlDeleteFromLinks st id).1.linksFts, f.rowid ≠ id := by
      intro f hf
      rw [sqlDelete_fts] at hf
      have hall := (List.mem_filter.mp hf).2
      rw [List.all_eq_true] at hall
      have h3 := hall r0 hr0
      simp only [Bool.not_eq_true', beq_eq_false_iff_ne] at h3
      rw [hr0id] at h3
      exact h3
    have factL : ∀ l ∈ (sqlDeleteFromLinks st id).1.links, l ∈ st.links ∧ l.id ≠ id := by
      intro l hl
      rw [sqlDelete_links] at hl
      have h4 := List.mem_filter.mp hl
      refine ⟨h4.1, ?_⟩
      have h5 := h4.2
      simp only [Bool.not_eq_true', beq_eq_false_iff_ne] at h5
      exact h5
    have factC : ftsConsistent (sqlDeleteFromLinks st id).1 = true := by
      simp only [ftsConsistent, Bool.and_eq_true, List.all_eq_true, List.any_eq_true,
        beq_iff_eq]
      constructor
      · intro f hf
        have hfid := factA f hf
        have hfmem : f ∈ st.linksFts := by
          rw [sqlDelete_fts] at hf
          exact (List.mem_filter.mp hf).1
        obtain ⟨r, hrmem, hrid⟩ := hc1 f hfmem
        refine ⟨r, ?_, hrid⟩
        rw [sqlDelete_links, List.mem_filter]
        refine ⟨hrmem, ?_⟩
        simp only [Bool.not_eq_true', beq_eq_false_iff_ne]
        rw [hrid]
        exact hfid
      · intro r hr
        obtain ⟨hrmem, hrid⟩ := factL r hr
        obtain ⟨f, hfmem, hfid⟩ := hc2 r hrmem
        refine ⟨f, ?_, hfid⟩
        rw [sqlDelete_fts, List.mem_filter]
        refine ⟨hfmem, ?_⟩
        rw [List.all_eq_true]
        intro r2 hr2
        have hr2id : r2.id = id := by
          have h6 := (List.mem_filter.mp hr2).2
          simpa [beq_iff_eq] using h6
        simp only [Bool.not_eq_true', beq_eq_false_iff_ne]
        rw [hfid, hr2id]
        exact hrid
    have factG : ∀ l ∈ GetAllLinks (sqlDeleteFromLinks st id).1, l.id ≠ id := by
      intro l hl
      simp only [GetAllLinks] at hl
      exact (factL l ((mem_sortByAddedAtDesc l _).mp hl)).2
    have factS : ∀ q l, l ∈ Search (sqlDeleteFromLinks st id).1 q → l.id ≠ id := by
      intro q l hl
      simp only [Search] at hl
      exact (factL l (List.mem_filter.mp hl).1).2
    exact ⟨rfl, factC, factA, factG, factS, factAdd, rfl⟩

/-- Witness for C3: add one link, delete it. -/
theorem c3_witness :
    (⟨[], [], 1⟩ : DBState) =
      (sqlDeleteFromLinks (AddLink emptyDB "https://e2.com" "tt" "dd" "bb").2 1).1 ∧
    ftsConsistent (⟨[], [], 1⟩ : DBState) = true ∧
    (∀ f ∈ (⟨[], [], 1⟩ : DBState).linksFts, f.rowid ≠ 1) ∧
    (∀ l ∈ GetAllLinks (⟨[], [], 1⟩ : DBState), l.id ≠ 1) ∧
    (∀ q l, l ∈ Search (⟨[], [], 1⟩ : DBState) q → l.id ≠ 1) ∧
    (∀ u t d b,
      ftsConsistent (AddLink (AddLink emptyDB "https://e2.com" "tt" "dd" "bb").2 u t d b).2 =
        true) ∧
    ftsConsistent emptyDB = true :=
  c3_shadow_index_consistency (AddLink emptyDB "https://e2.com" "tt" "dd" "bb").2
    ⟨[], [], 1⟩ 1 (by decide) rfl

set_option maxRecDepth 4000 in
/-- C7: the claim says truncation is bit-exact and identical on both
extraction paths. On the plain-fetch path a 250-character title is stored
verbatim and a 251-character title becomes its first 250 characters plus
"..."; but on the browser path (handlers.go line 554) the truncation appends
the ellipsis marker twice, so the same 251-character title becomes the first
250 characters plus "......" — the two paths differ, contradicting the
claim, the spec, and the single-"..." convention of the plain path. -/
theorem c7_truncation_divergence :
    extractFromHtml (String.mk (List.replicate 250 'a')) "" [] =
      some (String.mk (List.replicate 250 'a'), "", []) ∧
    extractFromHtml (String.mk (List.replicate 251 'a')) "" [] =
      some (String.mk (List.replicate 250 'a') ++ "...", "", []) ∧
    normalizeBrowserExtraction (String.mk (List.replicate 251 'a')) "" [] =
      some (String.mk (List.replicate 250 'a') ++ "..." ++ "...", "", []) ∧
    (String.mk (List.replicate 250 'a') ++ "..." ++ "..." : String) ≠
      String.mk (List.replicate 250 'a') ++ "..." := by decide

/-- C8: screenshots are saved under `screenshotFilename url` (the sha256 hex
digest of the URL, 64 characters, plus ".png"), but the `DeleteLink` handler
removes `<id>.png` built from the numeric id; since the digest-based name
(68 characters) can never equal `1.png`, the saved artifact survives the
deletion, contradicting the claim that it no longer exists. -/
theorem c8_screenshot_survives_delete :
    ∀ (sha256hex : String → String),
      goLen (sha256hex "https://example.com/") = 64 →
      deleteLinkHandler (AddLink emptyDB "https://example.com/" "Example" "d" "b").2
          (saveScreenshot sha256hex [] "https://example.com/") 1 =
        ((⟨[], [], 1⟩ : DBState), saveScreenshot sha256hex [] "https://example.com/",
          statusOK) ∧
      screenshotFilename sha256hex "https://example.com/" ∈
        saveScreenshot sha256hex [] "https://example.com/" := by
  intro f hlen
  have hdel : DeleteLink (AddLink emptyDB "https://example.com/" "Example" "d" "b").2 1 =
      Except.ok (⟨[], [], 1⟩ : DBState) := rfl
  have hne : screenshotFilename f "https://example.com/" ≠ toString 1 ++ ".png" := by
    intro he
    have hl := congrArg goLen he
    rw [screenshotFilename, goLen_append, hlen] at hl
    have h1 : goLen (".png" : String) = 4 := rfl
    have h2 : goLen (toString 1 ++ ".png") = 5 := rfl
    rw [h1, h2] at hl
    exact absurd hl (by decide)
  have hbeq : (screenshotFilename f "https://example.com/" != toString 1 ++ ".png") = true :=
    bne_iff_ne.mpr hne
  constructor
  · simp [deleteLinkHandler, hdel, saveScreenshot, hbeq]
  · exact List.mem_cons_self _ _

/-- Witness for C8 with a concrete 64-character digest function. -/
theorem c8_witness :
    deleteLinkHandler (AddLink emptyDB "https://example.com/" "Example" "d" "b").2
        (saveScreenshot (fun _ => String.mk (List.replicate 64 '0')) [] "https://example.com/")
        1 =
      ((⟨[], [], 1⟩ : DBState),
        saveScreenshot (fun _ => String.mk (List.replicate 64 '0')) [] "https://example.com/",
        statusOK) ∧
    screenshotFilename (fun _ => String.mk (List.replicate 64 '0')) "https://example.com/" ∈
      saveScreenshot (fun _ => String.mk (List.replicate 64 '0')) [] "https://example.com/" :=
  c8_screenshot_survives_delete (fun _ => String.mk (List.replicate 64 '0')) rfl

/-- C9 counterexample: the claim says that when the document contains no
body element the indexed body is empty. A document with no body element (and
hence no literal "<body>" substring) yields the whole document as the
indexed body, which is not empty. -/
theorem c9_absent_body_not_empty :
    extractFromHtml "T" "" ("<html><head><title>T</title></head><p>x</p></html>".data) =
      some ("T", "", "<html><head><title>T</title></head><p>x</p></html>".data) ∧
    ("<html><head><title>T</title></head><p>x</p></html>".data : List Char) ≠ [] := by decide

/-- C9 (amended): on the plain-fetch hypertext path the indexed body is the
raw byte suffix of the fetched document starting at the first occurrence of
the literal substring "<body>" when that occurrence is at a positive offset
(so it runs to the end of the document, not to the closing tag); when there
is no such occurrence, or it is at offset zero, the indexed body is the
entire fetched document (in particular not empty for a nonempty document
without a body element). -/
theorem c9_body_is_raw_suffix :
    ∀ (pt pd : String) (doc : List Char) (t d : String) (body : List Char),
      extractFromHtml pt pd doc = some (t, d, body) →
      (match indexOfSub doc ("<body>".data) with
       | some i =>
         if i > 0 then
           body = doc.drop i ∧ strStartsWith body ("<body>".data) = true
         else body = doc
       | none => body = doc) := by
  intro pt pd doc t d body h
  simp only [extractFromHtml] at h
  split at h
  · cases h
  · injection h with h
    have hb : (match indexOfSub doc ("<body>".data) with
        | some i => if i > 0 then doc.drop i else doc
        | none => doc) = body := congrArg (fun p => p.2.2) h
    subst hb
    cases hidx : indexOfSub doc ("<body>".data) with
    | none => simp
    | some i =>
      by_cases hi : i > 0
      · have hsw := strStartsWith_of_indexOfSub doc ("<body>".data) i hidx
        simp [hi, hsw]
      · simp [hi]

/-- Witness for C9 on a document whose "<body>" occurs at offset 3. -/
theorem c9_witness :
    (match indexOfSub ("<x><body>hi</body>".data) ("<body>".data) with
     | some i =>
       if i > 0 then
         "<body>hi</body>".data = ("<x><body>hi</body>".data).drop i ∧
           strStartsWith ("<body>hi</body>".data) ("<body>".data) = true
       else "<body>hi</body>".data = "<x><body>hi</body>".data
     | none => "<body>hi</body>".data = "<x><body>hi</body>".data) :=
  c9_body_is_raw_suffix "T" "" ("<x><body>hi</body>".data) "T" "" ("<body>hi</body>".data)
    (by decide)

/-- C10: the note pseudo-URL is "note:" plus the millisecond timestamp, so a
second valid note processed in the same millisecond derives the same
pseudo-URL; its `AddLink` hits the UNIQUE constraint and returns
`ErrDuplicate`, `addNote` takes its generic error branch (it has no
`ErrDuplicate` check), the second note is not stored (the state is
unchanged), and the reported status is 500, not the 409 duplicate-conflict
status that the URL path maps `ErrDuplicate` to. -/
theorem c10_same_millisecond_note_collision :
    ∀ (st st2 : DBState) (m : Nat) (t1 n1 t2 n2 : String),
      addNote st m t1 n1 = (st2, statusCreated) →
      goTrimSpace t2 ≠ "" →
      goLen (goTrimSpace t2) ≤ maxTitleLength →
      goTrimSpace n2 ≠ "" →
      goLen (goTrimSpace n2) ≤ maxDescriptionLength →
      addItemNote st2 m t2 n2 = (st2, statusInternalServerError) ∧
      statusInternalServerError ≠ statusConflict ∧
      addLinkStoreStatus (Except.error DBError.duplicate) = statusConflict := by
  intro st st2 m t1 n1 t2 n2 h hv1 hv2 hv3 hv4
  refine ⟨?_, by decide, rfl⟩
  have hb1 : (goTrimSpace t2 == "") = false := beq_eq_false_iff_ne.mpr hv1
  have hb3 : (goTrimSpace n2 == "") = false := beq_eq_false_iff_ne.mpr hv3
  have hl2 : ¬ goLen (goTrimSpace t2) > maxTitleLength := not_lt.mpr hv2
  have hl4 : ¬ goLen (goTrimSpace n2) > maxDescriptionLength := not_lt.mpr hv4
  simp only [addNote] at h
  split at h
  · rename_i val st3 heq
    injection h with h1 h2
    subst h1
    unfold AddLink at heq
    split at heq
    · exact absurd (congrArg Prod.fst heq) (by simp)
    · injection heq with heq1 heq2
      subst heq2
      simp only [addItemNote, hb1, Bool.false_eq_true, if_false, hl2, hb3, hl4,
        if_true, if_false]
      simp [addNote, AddLink, List.any_append]
  · rename_i p heq
    injection h with h1 h2
    exact absurd h2 (by decide)

/-- Witness for C10 at millisecond 7. -/
theorem c10_witness :
    addItemNote (addNote emptyDB 7 "Groceries" "milk and eggs").1 7 "Again" "bread" =
      ((addNote emptyDB 7 "Groceries" "milk and eggs").1, statusInternalServerError) ∧
    statusInternalServerError ≠ statusConflict ∧
    addLinkStoreStatus (Except.error DBError.duplicate) = statusConflict :=
  c10_same_millisecond_note_collision emptyDB _ 7 "Groceries" "milk and eggs" "Again" "bread"
    rfl (by decide) (by decide) (by decide) (by decide)

end LinkSaver
